import Mathlib

/-!
Verification of the transfer-channel orchestration engine of `hits`
(HIP Transfer Streams, src/hits.c), via a shallow embedding.

The embedding models the program's observable behaviour as traces of
events: the issue loop in `main` (lines 517-525) produces a trace of
timing-mark recordings and asynchronous copy submissions tagged with the
iteration index and the channel index; the allocation phase
(`transfer_init` and its per-direction helpers) produces a trace of
capability/allocation actions; teardown (`fini`) produces a trace of
release actions.  Machine integers are modelled as `Int`/`Nat` (no value
in the claims approaches an overflow boundary) and the float arithmetic
of the bandwidth report is idealised as exact rational arithmetic.
-/

namespace Hits

/-- Transfer direction, mirroring `enum TransferType` in src/hits.c. -/
inductive TransferType
  | HTOD
  | DTOH
  | DTOD
deriving DecidableEq, Repr

/-- The per-channel mutable state relevant to the run phase, mirroring the
fields of `struct Transfer` in src/hits.c that the issue loop reads or
writes (`device`, `device2`, `type`, `numa_node`, `is_started`).  The HIP
handles (`start`, `stop`, buffers, `stream`) are modelled through the event
traces instead of as stored values. -/
structure Transfer where
  device : Int
  device2 : Int
  ttype : TransferType
  numa_node : Int
  is_started : Bool
deriving DecidableEq, Repr

/-- Direction argument of `hipMemcpyAsync` as used in `direct_transfer`. -/
inductive CopyKind
  | deviceToHost
  | hostToDevice
deriving DecidableEq, Repr

/-- Observable events of one channel step of the issue loop. -/
inductive IssueEvent
  | recordStart
  | memcpyAsync (kind : CopyKind) (bytes : Int)
  | memcpyPeerAsync (dstDev : Int) (srcDev : Int) (bytes : Int)
  | recordStop
deriving DecidableEq, Repr

/-- `direct_transfer` (src/hits.c lines 431-454): on the first call the
start event is recorded on the stream and `is_started` is flipped; every
call submits one `hipMemcpyAsync` of `n_bytes` whose direction follows the
channel type; on the last iteration the stop event is recorded. -/
def direct_transfer (t : Transfer) (n_bytes : Int) (is_last_iter : Bool) :
    Transfer × List IssueEvent :=
  let startPart : Transfer × List IssueEvent :=
    if t.is_started then (t, [])
    else ({ t with is_started := true }, [IssueEvent.recordStart])
  let copyEv : IssueEvent :=
    IssueEvent.memcpyAsync
      (if t.ttype = TransferType.DTOH then CopyKind.deviceToHost
       else CopyKind.hostToDevice) n_bytes
  let stopPart : List IssueEvent :=
    if is_last_iter then [IssueEvent.recordStop] else []
  (startPart.1, startPart.2 ++ copyEv :: stopPart)

/-- `dtod_transfer` (src/hits.c lines 463-480): same timing structure as
`direct_transfer`, but the submission is one `hipMemcpyPeerAsync` naming
both devices. -/
def dtod_transfer (t : Transfer) (n_bytes : Int) (is_last_iter : Bool) :
    Transfer × List IssueEvent :=
  let startPart : Transfer × List IssueEvent :=
    if t.is_started then (t, [])
    else ({ t with is_started := true }, [IssueEvent.recordStart])
  let copyEv : IssueEvent :=
    IssueEvent.memcpyPeerAsync t.device t.device2 n_bytes
  let stopPart : List IssueEvent :=
    if is_last_iter then [IssueEvent.recordStop] else []
  (startPart.1, startPart.2 ++ copyEv :: stopPart)

/-- The dispatch in the inner loop of `main` (src/hits.c line 523):
`(t->type == DTOD) ? dtod_transfer(...) : direct_transfer(...)`. -/
def issue_one (t : Transfer) (n_bytes : Int) (is_last : Bool) :
    Transfer × List IssueEvent :=
  if t.ttype = TransferType.DTOD then dtod_transfer t n_bytes is_last
  else direct_transfer t n_bytes is_last

/-- The inner loop of `main` over the channel array (src/hits.c lines
520-524): issues one step on every channel in array order.  Events are
tagged with the channel index (`j0` is the index of the first channel of
`ts` in the full array). -/
def issue_iter (ts : List Transfer) (n_bytes : Int) (is_last : Bool)
    (j0 : Nat) : List Transfer × List (Nat × IssueEvent) :=
  match ts with
  | [] => ([], [])
  | t :: rest =>
    let head := issue_one t n_bytes is_last
    let tail := issue_iter rest n_bytes is_last (j0 + 1)
    (head.1 :: tail.1, head.2.map (fun e => (j0, e)) ++ tail.2)

/-- The outer loop of `main` (src/hits.c lines 517-525), run over an
explicit list of iteration indices; `is_last` reproduces
`const bool is_last = (i == n_iter - 1)`.  Events are further tagged with
the iteration index. -/
def issue_loop_go (n_bytes : Int) (n_iter : Nat) :
    List Nat → List Transfer → List Transfer × List (Nat × Nat × IssueEvent)
  | [], ts => (ts, [])
  | i :: rest, ts =>
    let is_last : Bool := i == n_iter - 1
    let step := issue_iter ts n_bytes is_last 0
    let next := issue_loop_go n_bytes n_iter rest step.1
    (next.1, step.2.map (fun e => (i, e)) ++ next.2)

/-- The full issue loop: iteration indices `0 .. n_iter - 1` (for
`n_iter = 0` the loop body never runs, as in the C source where the
`size_t` counter fails `i < n_iter` immediately). -/
def issue_loop (ts : List Transfer) (n_bytes : Int) (n_iter : Nat) :
    List Transfer × List (Nat × Nat × IssueEvent) :=
  issue_loop_go n_bytes n_iter (List.range n_iter) ts

/-- `true` exactly on stop-mark recordings. -/
def isStopEv : IssueEvent → Bool
  | IssueEvent.recordStop => true
  | _ => false

/-- `true` exactly on start-mark recordings. -/
def isStartEv : IssueEvent → Bool
  | IssueEvent.recordStart => true
  | _ => false

/-- `true` exactly on asynchronous copy submissions. -/
def isCopyEv : IssueEvent → Bool
  | IssueEvent.memcpyAsync _ _ => true
  | IssueEvent.memcpyPeerAsync _ _ _ => true
  | _ => false

/-- Events of channel `j` satisfying `p`, from a channel-tagged trace. -/
def chanEvents (p : IssueEvent → Bool) (j : Nat)
    (tr : List (Nat × IssueEvent)) : List IssueEvent :=
  (tr.filter (fun e => e.1 == j && p e.2)).map Prod.snd

/-- Events of channel `j` satisfying `p`, from the full loop trace,
keeping the iteration index of each. -/
def loopChanEvents (p : IssueEvent → Bool) (j : Nat)
    (tr : List (Nat × Nat × IssueEvent)) : List (Nat × IssueEvent) :=
  (tr.filter (fun e => e.2.1 == j && p e.2.2)).map (fun e => (e.1, e.2.2))

/-- A sample HostToDevice channel as produced by configuration resolution
followed by `_transfer_init_common` (`numa_node = -1`, not started). -/
def sampleHtod : Transfer :=
  { device := 0, device2 := -1, ttype := TransferType.HTOD,
    numa_node := -1, is_started := false }

/-- The start-mark recordings a single channel step emits. -/
def startList (t : Transfer) : List IssueEvent :=
  if t.is_started then [] else [IssueEvent.recordStart]

/-- The copy submission a single channel step emits. -/
def copyEventOf (t : Transfer) (b : Int) : IssueEvent :=
  if t.ttype = TransferType.DTOD then
    IssueEvent.memcpyPeerAsync t.device t.device2 b
  else
    IssueEvent.memcpyAsync
      (if t.ttype = TransferType.DTOH then CopyKind.deviceToHost
       else CopyKind.hostToDevice) b

/-- The stop-mark recordings a single channel step emits. -/
def stopList (l : Bool) : List IssueEvent :=
  if l then [IssueEvent.recordStop] else []

theorem issue_one_fst (t : Transfer) (b : Int) (l : Bool) :
    (issue_one t b l).1 = { t with is_started := true } := by
  rcases t with ⟨d, d2, ty, nn, st⟩
  cases st <;> cases ty <;>
    simp [issue_one, direct_transfer, dtod_transfer]

theorem issue_one_snd (t : Transfer) (b : Int) (l : Bool) :
    (issue_one t b l).2 = startList t ++ copyEventOf t b :: stopList l := by
  rcases t with ⟨d, d2, ty, nn, st⟩
  cases st <;> cases ty <;> cases l <;>
    simp [issue_one, direct_transfer, dtod_transfer, startList, copyEventOf,
      stopList]

theorem issue_one_filter_stop (t : Transfer) (b : Int) (l : Bool) :
    (issue_one t b l).2.filter isStopEv = stopList l := by
  rw [issue_one_snd]
  unfold startList copyEventOf stopList
  split_ifs <;> simp [isStopEv]

theorem issue_one_filter_start (t : Transfer) (b : Int) (l : Bool) :
    (issue_one t b l).2.filter isStartEv = startList t := by
  rw [issue_one_snd]
  unfold startList copyEventOf stopList
  split_ifs <;> simp [isStartEv]

theorem issue_one_filter_copy (t : Transfer) (b : Int) (l : Bool) :
    (issue_one t b l).2.filter isCopyEv = [copyEventOf t b] := by
  rw [issue_one_snd]
  unfold startList copyEventOf stopList
  split_ifs <;> simp [isCopyEv]

theorem issue_iter_fst (ts : List Transfer) (b : Int) (l : Bool) (j0 : Nat) :
    (issue_iter ts b l j0).1 = ts.map (fun t => (issue_one t b l).1) := by
  induction ts generalizing j0 with
  | nil => rfl
  | cons t rest ih => simp [issue_iter, ih]

theorem chanEvents_append (p : IssueEvent → Bool) (j : Nat)
    (a c : List (Nat × IssueEvent)) :
    chanEvents p j (a ++ c) = chanEvents p j a ++ chanEvents p j c := by
  simp [chanEvents]

theorem chanEvents_map_tag_self (p : IssueEvent → Bool) (j : Nat)
    (evs : List IssueEvent) :
    chanEvents p j (evs.map (fun e => (j, e))) = evs.filter p := by
  induction evs with
  | nil => rfl
  | cons e rest ih =>
    by_cases hp : p e = true
    · simp [chanEvents, List.filter_cons, hp] at ih ⊢
      exact ih
    · simp [chanEvents, List.filter_cons, hp] at ih ⊢
      exact ih

theorem chanEvents_map_tag_ne (p : IssueEvent → Bool) (j j2 : Nat)
    (h : j2 ≠ j) (evs : List IssueEvent) :
    chanEvents p j (evs.map (fun e => (j2, e))) = [] := by
  induction evs with
  | nil => rfl
  | cons e rest ih =>
    simp only [List.map_cons]
    rw [show ((j2, e) :: rest.map (fun e => (j2, e))) =
      [(j2, e)] ++ rest.map (fun e => (j2, e)) from rfl]
    rw [chanEvents_append, ih]
    simp [chanEvents, List.filter_cons, h]

theorem issue_iter_tags_ge (ts : List Transfer) (b : Int) (l : Bool)
    (j0 : Nat) : ∀ e ∈ (issue_iter ts b l j0).2, j0 ≤ e.1 := by
  induction ts generalizing j0 with
  | nil => simp [issue_iter]
  | cons t rest ih =>
    intro e he
    rw [issue_iter] at he
    simp only [List.mem_append, List.mem_map] at he
    rcases he with ⟨ev, _, rfl⟩ | he
    · exact Nat.le_refl j0
    · exact Nat.le_trans (Nat.le_succ j0) (ih (j0 + 1) e he)

theorem chanEvents_nil_of_tags_gt (p : IssueEvent → Bool) (j : Nat)
    (tr : List (Nat × IssueEvent)) (h : ∀ e ∈ tr, j < e.1) :
    chanEvents p j tr = [] := by
  induction tr with
  | nil => rfl
  | cons e rest ih =>
    have hne : e.1 ≠ j := Nat.ne_of_gt (h e (List.mem_cons_self e rest))
    have hrest : ∀ x ∈ rest, j < x.1 := fun x hx => h x (List.mem_cons_of_mem e hx)
    simp only [chanEvents, List.filter_cons]
    have hcond : (e.1 == j && p e.2) = false := by
      simp [hne]
    rw [hcond]
    exact ih hrest

theorem chanEvents_issue_iter (p : IssueEvent → Bool) (ts : List Transfer)
    (b : Int) (l : Bool) (j0 j : Nat) (hj : j < ts.length) :
    chanEvents p (j0 + j) (issue_iter ts b l j0).2 =
      (issue_one (ts.get ⟨j, hj⟩) b l).2.filter p := by
  induction ts generalizing j0 j with
  | nil => simp at hj
  | cons t rest ih =>
    rw [issue_iter]
    rw [chanEvents_append]
    cases j with
    | zero =>
      rw [Nat.add_zero, chanEvents_map_tag_self]
      have htail : chanEvents p j0 (issue_iter rest b l (j0 + 1)).2 = [] := by
        refine chanEvents_nil_of_tags_gt p j0 _ (fun e he => ?_)
        exact Nat.lt_of_lt_of_le (Nat.lt_succ_self j0)
          (issue_iter_tags_ge rest b l (j0 + 1) e he)
      rw [htail, List.append_nil]
      rfl
    | succ j2 =>
      have hhead : chanEvents p (j0 + (j2 + 1))
          ((issue_one t b l).2.map (fun e => (j0, e))) = [] := by
        refine chanEvents_map_tag_ne p (j0 + (j2 + 1)) j0 ?_ _
        omega
      rw [hhead, List.nil_append]
      have hj2 : j2 < rest.length := Nat.lt_of_succ_lt_succ (by simpa using hj)
      have := ih (j0 + 1) j2 hj2
      rw [show j0 + (j2 + 1) = j0 + 1 + j2 by omega]
      rw [this]
      rfl

theorem loopChanEvents_append (p : IssueEvent → Bool) (j : Nat)
    (a c : List (Nat × Nat × IssueEvent)) :
    loopChanEvents p j (a ++ c) =
      loopChanEvents p j a ++ loopChanEvents p j c := by
  simp [loopChanEvents]

theorem loopChanEvents_map_iter (p : IssueEvent → Bool) (j i : Nat)
    (tr : List (Nat × IssueEvent)) :
    loopChanEvents p j (tr.map (fun e => (i, e))) =
      (chanEvents p j tr).map (fun ev => (i, ev)) := by
  simp only [loopChanEvents, chanEvents, List.filter_map, List.map_map]
  rfl

theorem issue_loop_go_append (b : Int) (n : Nat) (is1 is2 : List Nat)
    (ts : List Transfer) :
    issue_loop_go b n (is1 ++ is2) ts =
      ((issue_loop_go b n is2 (issue_loop_go b n is1 ts).1).1,
       (issue_loop_go b n is1 ts).2 ++
         (issue_loop_go b n is2 (issue_loop_go b n is1 ts).1).2) := by
  induction is1 generalizing ts with
  | nil => simp [issue_loop_go]
  | cons i rest ih => simp [issue_loop_go, ih]

theorem issue_loop_go_length (b : Int) (n : Nat) (is : List Nat)
    (ts : List Transfer) :
    (issue_loop_go b n is ts).1.length = ts.length := by
  induction is generalizing ts with
  | nil => rfl
  | cons i rest ih =>
    simp [issue_loop_go, ih, issue_iter_fst]

theorem chanEvents_stop_not_last (ts : List Transfer) (b : Int)
    (j0 j : Nat) :
    chanEvents isStopEv j (issue_iter ts b false j0).2 = [] := by
  induction ts generalizing j0 with
  | nil => rfl
  | cons t rest ih =>
    rw [issue_iter, chanEvents_append]
    rw [ih (j0 + 1), List.append_nil]
    by_cases h : j0 = j
    · subst h
      rw [chanEvents_map_tag_self, issue_one_filter_stop]
      rfl
    · exact chanEvents_map_tag_ne isStopEv j j0 h _

theorem loop_stops_nil (b : Int) (n : Nat) (is : List Nat)
    (ts : List Transfer) (j : Nat) (h : ∀ i ∈ is, i ≠ n - 1) :
    loopChanEvents isStopEv j (issue_loop_go b n is ts).2 = [] := by
  induction is generalizing ts with
  | nil => rfl
  | cons i rest ih =>
    have hi : (i == n - 1) = false := by
      simp [h i (List.mem_cons_self i rest)]
    rw [issue_loop_go]
    simp only [hi]
    rw [loopChanEvents_append, loopChanEvents_map_iter,
      chanEvents_stop_not_last]
    simp only [List.map_nil, List.nil_append]
    exact ih _ (fun x hx => h x (List.mem_cons_of_mem i hx))

theorem chanEvents_issue_iter0 (p : IssueEvent → Bool) (ts : List Transfer)
    (b : Int) (l : Bool) (j : Nat) (hj : j < ts.length) :
    chanEvents p j (issue_iter ts b l 0).2 =
      (issue_one (ts.get ⟨j, hj⟩) b l).2.filter p := by
  have := chanEvents_issue_iter p ts b l 0 j hj
  simpa using this

theorem issue_loop_go_single (b : Int) (n i : Nat) (ts : List Transfer) :
    issue_loop_go b n [i] ts =
      ((issue_iter ts b (i == n - 1) 0).1,
       (issue_iter ts b (i == n - 1) 0).2.map (fun e => (i, e))) := by
  simp [issue_loop_go]

/-- C1: for every channel index `j` and every iteration count `n ≥ 1`, the
issue loop records the stop mark on channel `j` exactly once, and that
recording happens at the iteration with index `n - 1`. -/
theorem stop_mark_recorded_once (ts : List Transfer) (b : Int) (n j : Nat)
    (hn : 1 ≤ n) (hj : j < ts.length) :
    loopChanEvents isStopEv j (issue_loop ts b n).2 =
      [(n - 1, IssueEvent.recordStop)] := by
  unfold issue_loop
  have hrange : List.range n = List.range (n - 1) ++ [n - 1] := by
    conv_lhs => rw [← Nat.succ_pred_eq_of_pos hn]
    rw [List.range_succ]
    rfl
  rw [hrange, issue_loop_go_append]
  simp only
  rw [loopChanEvents_append]
  rw [loop_stops_nil b n (List.range (n - 1)) ts j (fun i hi => by
    have := List.mem_range.mp hi; omega)]
  rw [List.nil_append]
  have hj1 : j < (issue_loop_go b n (List.range (n - 1)) ts).1.length := by
    rw [issue_loop_go_length]; exact hj
  rw [issue_loop_go_single, loopChanEvents_map_iter]
  rw [chanEvents_issue_iter0 isStopEv _ b _ j hj1]
  rw [issue_one_filter_stop]
  have hlast : ((n - 1 : Nat) == n - 1) = true := by simp
  rw [hlast]
  simp [stopList]

/-- C1 witness: a concrete run with one HostToDevice channel and three
iterations records the stop mark exactly once, at iteration index 2. -/
theorem stop_mark_recorded_once_witness :
    loopChanEvents isStopEv 0 (issue_loop [sampleHtod] 1024 3).2 =
      [(2, IssueEvent.recordStop)] :=
  stop_mark_recorded_once [sampleHtod] 1024 3 0 (by decide) (by decide)

/-- C1 counterexample: the configuration `--iter=0` is accepted by the
parser (only negative counts are rejected), and with `n_iter = 0` the
issue loop body never runs, so the stop mark is recorded zero times, not
exactly once: the claim fails without the restriction `n_iter ≥ 1`. -/
theorem stop_mark_zero_iters_cex :
    (loopChanEvents isStopEv 0 (issue_loop [sampleHtod] 1024 0).2).length
      ≠ 1 := by decide

theorem issue_one_is_started (t : Transfer) (b : Int) (l : Bool) :
    (issue_one t b l).1.is_started = true := by
  rw [issue_one_fst]

theorem issue_iter_all_started (ts : List Transfer) (b : Int) (l : Bool)
    (j0 : Nat) : ∀ t ∈ (issue_iter ts b l j0).1, t.is_started = true := by
  rw [issue_iter_fst]
  intro t ht
  rcases List.mem_map.mp ht with ⟨t0, _, rfl⟩
  exact issue_one_is_started t0 b l

theorem chanEvents_start_of_started (ts : List Transfer) (b : Int) (l : Bool)
    (j0 j : Nat) (h : ∀ t ∈ ts, t.is_started = true) :
    chanEvents isStartEv j (issue_iter ts b l j0).2 = [] := by
  induction ts generalizing j0 with
  | nil => rfl
  | cons t rest ih =>
    rw [issue_iter, chanEvents_append]
    rw [ih (j0 + 1) (fun x hx => h x (List.mem_cons_of_mem t hx)),
      List.append_nil]
    by_cases hq : j0 = j
    · subst hq
      rw [chanEvents_map_tag_self, issue_one_filter_start]
      simp [startList, h t (List.mem_cons_self t rest)]
    · exact chanEvents_map_tag_ne isStartEv j j0 hq _

theorem loop_starts_nil (b : Int) (n : Nat) (is : List Nat)
    (ts : List Transfer) (j : Nat) (h : ∀ t ∈ ts, t.is_started = true) :
    loopChanEvents isStartEv j (issue_loop_go b n is ts).2 = [] ∧
    ∀ t ∈ (issue_loop_go b n is ts).1, t.is_started = true := by
  induction is generalizing ts with
  | nil => exact ⟨rfl, h⟩
  | cons i rest ih =>
    rw [issue_loop_go]
    simp only
    have hstep := issue_iter_all_started ts b (i == n - 1) 0
    rcases ih (issue_iter ts b (i == n - 1) 0).1 hstep with ⟨ih1, ih2⟩
    refine ⟨?_, ih2⟩
    rw [loopChanEvents_append, loopChanEvents_map_iter,
      chanEvents_start_of_started ts b _ 0 j h, ih1]
    rfl

/-- C6: for every channel index `j` and every `n_iter ≥ 1`, starting from
channels whose `is_started` flag is false (as `_transfer_init_common`
leaves them), the issue loop records the start mark on channel `j` exactly
once, at the first issued iteration (index 0), and after the loop every
channel's flag is true — it never reverts. -/
theorem started_flag_set_once (ts : List Transfer) (b : Int) (n j : Nat)
    (hn : 1 ≤ n) (h0 : ∀ t ∈ ts, t.is_started = false)
    (hj : j < ts.length) :
    loopChanEvents isStartEv j (issue_loop ts b n).2 =
      [(0, IssueEvent.recordStart)] ∧
    (∀ t ∈ (issue_loop ts b n).1, t.is_started = true) ∧
    (∀ (t2 : Transfer) (b2 : Int) (l2 : Bool),
      (issue_one t2 b2 l2).1.is_started = true) := by
  unfold issue_loop
  have hrange : List.range n = [0] ++ (List.range (n - 1)).map Nat.succ := by
    conv_lhs => rw [← Nat.succ_pred_eq_of_pos hn]
    rw [List.range_succ_eq_map]
    rfl
  rw [hrange, issue_loop_go_append]
  simp only
  rw [issue_loop_go_single]
  simp only
  have hstep := issue_iter_all_started ts b ((0 : Nat) == n - 1) 0
  rcases loop_starts_nil b n ((List.range (n - 1)).map Nat.succ)
    (issue_iter ts b ((0 : Nat) == n - 1) 0).1 j hstep with ⟨h1, h2⟩
  refine ⟨?_, h2, fun t2 b2 l2 => issue_one_is_started t2 b2 l2⟩
  rw [loopChanEvents_append, loopChanEvents_map_iter,
    chanEvents_issue_iter0 isStartEv ts b _ j hj, issue_one_filter_start,
    h1]
  have hfalse : ts[j].is_started = false :=
    h0 _ (List.getElem_mem hj)
  simp [startList, hfalse]

/-- C6 witness: a concrete run with one unstarted HostToDevice channel and
three iterations records the start mark once at iteration 0 and leaves the
flag true. -/
theorem started_flag_set_once_witness :
    loopChanEvents isStartEv 0 (issue_loop [sampleHtod] 1024 3).2 =
      [(0, IssueEvent.recordStart)] ∧
    (∀ t ∈ (issue_loop [sampleHtod] 1024 3).1, t.is_started = true) ∧
    (∀ (t2 : Transfer) (b2 : Int) (l2 : Bool),
      (issue_one t2 b2 l2).1.is_started = true) :=
  started_flag_set_once [sampleHtod] 1024 3 0 (by decide)
    (by intro t ht; simp at ht; subst ht; rfl) (by decide)

theorem issue_iter_copy_trace (ts : List Transfer) (b : Int) (l : Bool)
    (j0 : Nat) :
    (issue_iter ts b l j0).2.filter (fun e => isCopyEv e.2) =
      (List.enumFrom j0 ts).map (fun jt => (jt.1, copyEventOf jt.2 b)) := by
  induction ts generalizing j0 with
  | nil => rfl
  | cons t rest ih =>
    rw [issue_iter]
    simp only [List.filter_append]
    rw [List.filter_map]
    rw [show ((fun (e : Nat × IssueEvent) => isCopyEv e.2) ∘
      (fun e => (j0, e))) = isCopyEv from rfl]
    rw [issue_one_filter_copy, ih (j0 + 1)]
    rfl

theorem copyEventOf_issue_one (t : Transfer) (b b2 : Int) (l : Bool) :
    copyEventOf (issue_one t b2 l).1 b = copyEventOf t b := by
  rw [issue_one_fst]
  rcases t with ⟨d, d2, ty, nn, st⟩
  rfl

theorem enum_map_issue_one_copy (ts : List Transfer) (b b2 : Int) (l : Bool)
    (j0 i : Nat) :
    (List.enumFrom j0 (ts.map (fun t => (issue_one t b2 l).1))).map
        (fun jt => (i, jt.1, copyEventOf jt.2 b)) =
      (List.enumFrom j0 ts).map (fun jt => (i, jt.1, copyEventOf jt.2 b)) := by
  induction ts generalizing j0 with
  | nil => rfl
  | cons t rest ih =>
    simp only [List.map_cons, List.enumFrom]
    rw [copyEventOf_issue_one, ih (j0 + 1)]

/-- C7: the trace of asynchronous copy submissions produced by the issue
loop is exactly: for each iteration index `i` in `0 .. n_iter - 1` in
order, one submission per channel `j` in channel order, each of the
configured transfer size, with the copy primitive determined by the
channel's direction (`hipMemcpyPeerAsync` for DeviceToDevice, directional
`hipMemcpyAsync` otherwise). -/
theorem issue_loop_copy_trace (ts : List Transfer) (b : Int) (n : Nat) :
    (issue_loop ts b n).2.filter (fun e => isCopyEv e.2.2) =
      (List.range n).flatMap (fun i =>
        (List.enum ts).map (fun jt => (i, jt.1, copyEventOf jt.2 b))) := by
  suffices h : ∀ (is : List Nat) (ts2 : List Transfer),
      (∀ t, copyEventOf t b = copyEventOf t b) →
      (issue_loop_go b n is ts2).2.filter (fun e => isCopyEv e.2.2) =
        is.flatMap (fun i =>
          (List.enum ts2).map (fun jt => (i, jt.1, copyEventOf jt.2 b))) by
    exact h (List.range n) ts (fun _ => rfl)
  intro is
  induction is with
  | nil => intro ts2 _; rfl
  | cons i rest ih =>
    intro ts2 _
    rw [issue_loop_go]
    simp only [List.filter_append, List.flatMap_cons]
    rw [List.filter_map]
    rw [show ((fun (e : Nat × Nat × IssueEvent) => isCopyEv e.2.2) ∘
      (fun e => (i, e))) = (fun (e : Nat × IssueEvent) => isCopyEv e.2)
      from rfl]
    rw [issue_iter_copy_trace, List.map_map]
    rw [ih _ (fun _ => rfl)]
    rw [issue_iter_fst]
    unfold List.enum
    simp only [enum_map_issue_one_copy]
    rfl

/-- Allocation-policy bit flags, mirroring `enum Flags` in src/hits.c. -/
def is_numa_aware : Nat := 1
/-- Pinned-memory bit flag (`is_pinned = 1 << 1`). -/
def is_pinned : Nat := 2

/-- Observable actions of the allocation phase (capability-provider calls
and memory acquisitions made by `_transfer_init_common`,
`set_numa_affinity` and the three per-direction initializers). -/
inductive InitAction
  | getDeviceProperties (dev : Int)
  | setDevice (dev : Int)
  | eventCreate
  | streamCreate
  | canAccessPeer (dev : Int) (dev2 : Int)
  | enablePeerAccess (dev : Int)
  | allocDevice (dev : Int) (bytes : Int)
  | allocHostPinned (bytes : Int)
  | allocHostPageable (bytes : Int)
  | numaSetPreferred (node : Int)
  | exitProcess (code : Nat)
deriving DecidableEq, Repr

/-- `true` exactly on buffer allocations (device or host). -/
def isAllocAct : InitAction → Bool
  | InitAction.allocDevice _ _ => true
  | InitAction.allocHostPinned _ => true
  | InitAction.allocHostPageable _ => true
  | _ => false

/-- `true` exactly on the NUMA preference call. -/
def isNumaPrefAct : InitAction → Bool
  | InitAction.numaSetPreferred _ => true
  | _ => false

/-- `true` exactly on process termination. -/
def isExitAct : InitAction → Bool
  | InitAction.exitProcess _ => true
  | _ => false

/-- `_transfer_init_common` (src/hits.c lines 232-247): resets
`numa_node` to -1 and `is_started` to false, fetches device properties
(for the second device only when `device2 >= 0`), selects the device and
creates the two timing events and the stream. -/
def transfer_init_common (t : Transfer) : Transfer × List InitAction :=
  let t2 : Transfer := { t with numa_node := -1, is_started := false }
  (t2,
    InitAction.getDeviceProperties t.device ::
      (if t.device2 ≥ 0 then [InitAction.getDeviceProperties t.device2]
       else []) ++
    [InitAction.setDevice t.device, InitAction.eventCreate,
     InitAction.eventCreate, InitAction.streamCreate])

/-- `set_numa_affinity` (src/hits.c lines 254-270), with the sysfs node
file modelled as `numaFile`: `none` means `fopen` fails (the function
returns immediately); `some none` means the file opens but `fscanf` does
not match an integer (nothing is written, no preference call); `some
(some v)` means `fscanf` reads `v` into `numa_node` and
`numa_set_preferred` is called with it, whatever `v` is. -/
def set_numa_affinity (numaFile : Option (Option Int)) (t : Transfer) :
    Transfer × List InitAction :=
  match numaFile with
  | none => (t, [])
  | some none => (t, [])
  | some (some v) =>
    ({ t with numa_node := v }, [InitAction.numaSetPreferred v])

/-- `dtoh_transfer_init` (src/hits.c lines 272-289): common setup, then
NUMA steering when the policy is on, then the host destination buffer
(pinned or pageable per policy) and the device source buffer. -/
def dtoh_transfer_init (numaFile : Option (Option Int)) (t : Transfer)
    (n_bytes : Int) (alloc_flags : Nat) : Transfer × List InitAction :=
  let common := transfer_init_common t
  let numaStep :=
    if alloc_flags &&& is_numa_aware ≠ 0 then set_numa_affinity numaFile common.1
    else (common.1, [])
  let hostAlloc : List InitAction :=
    if alloc_flags &&& is_pinned ≠ 0 then [InitAction.allocHostPinned n_bytes]
    else [InitAction.allocHostPageable n_bytes]
  (numaStep.1,
    common.2 ++ numaStep.2 ++ hostAlloc ++
      [InitAction.allocDevice numaStep.1.device n_bytes])

/-- `htod_transfer_init` (src/hits.c lines 291-308): same structure as
`dtoh_transfer_init` with source and destination buffers swapped (the
host buffer is the source, the device buffer the destination). -/
def htod_transfer_init (numaFile : Option (Option Int)) (t : Transfer)
    (n_bytes : Int) (alloc_flags : Nat) : Transfer × List InitAction :=
  let common := transfer_init_common t
  let numaStep :=
    if alloc_flags &&& is_numa_aware ≠ 0 then set_numa_affinity numaFile common.1
    else (common.1, [])
  let hostAlloc : List InitAction :=
    if alloc_flags &&& is_pinned ≠ 0 then [InitAction.allocHostPinned n_bytes]
    else [InitAction.allocHostPageable n_bytes]
  (numaStep.1,
    common.2 ++ numaStep.2 ++ hostAlloc ++
      [InitAction.allocDevice numaStep.1.device n_bytes])

/-- `dtod_transfer_init` (src/hits.c lines 310-330): common setup, then
the peer-access capability query; on a negative answer the process exits
with code 1 (`none` result, no buffer allocated); otherwise one device
buffer on each device with peer access enabled from the secondary device.
`cap` is the capability provider's `hipDeviceCanAccessPeer` answer. -/
def dtod_transfer_init (cap : Int → Int → Bool) (t : Transfer)
    (n_bytes : Int) : Option Transfer × List InitAction :=
  let common := transfer_init_common t
  let t2 := common.1
  let query := common.2 ++ [InitAction.canAccessPeer t2.device t2.device2]
  if !(cap t2.device t2.device2) then
    (none, query ++ [InitAction.exitProcess 1])
  else
    (some t2,
      query ++
        [InitAction.setDevice t2.device,
         InitAction.allocDevice t2.device n_bytes,
         InitAction.enablePeerAccess t2.device2,
         InitAction.setDevice t2.device2,
         InitAction.allocDevice t2.device2 n_bytes])

theorem transfer_init_common_no_alloc (t : Transfer) :
    (transfer_init_common t).2.countP isAllocAct = 0 := by
  rw [transfer_init_common]
  by_cases h : t.device2 ≥ 0 <;>
    simp [h, List.countP_cons, List.countP_append, isAllocAct]

/-- C2: for a DeviceToDevice channel, the allocation-phase trace always
places the peer-access capability query after only the common setup
actions — which contain no buffer allocation — hence strictly before any
buffer allocation; and when the capability provider answers no, the
channel's trace contains zero buffer allocations and ends with process
exit code 1 (no initialized channel is produced). -/
theorem dtod_peer_check_before_alloc (cap cap2 : Int → Int → Bool)
    (t : Transfer) (b : Int) (h : cap t.device t.device2 = false) :
    ((dtod_transfer_init cap2 t b).2 =
        (transfer_init_common t).2 ++
          InitAction.canAccessPeer t.device t.device2 ::
            (if cap2 t.device t.device2 then
              [InitAction.setDevice t.device,
               InitAction.allocDevice t.device b,
               InitAction.enablePeerAccess t.device2,
               InitAction.setDevice t.device2,
               InitAction.allocDevice t.device2 b]
             else [InitAction.exitProcess 1]) ∧
      (transfer_init_common t).2.countP isAllocAct = 0) ∧
    (dtod_transfer_init cap t b).2.countP isAllocAct = 0 ∧
    (dtod_transfer_init cap t b).1 = none ∧
    (dtod_transfer_init cap t b).2.getLast? =
      some (InitAction.exitProcess 1) := by
  refine ⟨⟨?_, transfer_init_common_no_alloc t⟩, ?_, ?_, ?_⟩
  · by_cases hc : cap2 t.device t.device2 = true <;>
      simp [dtod_transfer_init, transfer_init_common, hc]
  · simp [dtod_transfer_init, transfer_init_common, h,
      List.countP_append, List.countP_cons, isAllocAct]
  · simp [dtod_transfer_init, transfer_init_common, h]
  · by_cases hd : (0 : Int) ≤ t.device2 <;>
      simp [dtod_transfer_init, transfer_init_common, h, hd]

/-- A sample DeviceToDevice channel (destination device 1, source device
0) as configured by a `--dtod=1,0` argument. -/
def sampleDtod : Transfer :=
  { device := 1, device2 := 0, ttype := TransferType.DTOD,
    numa_node := -1, is_started := false }

/-- C2 witness: a concrete DeviceToDevice channel between devices 1 and 0
where peer access is reported absent: no buffer allocation appears in the
trace, the query follows only alloc-free common setup, and the trace ends
with exit code 1. -/
theorem dtod_peer_check_before_alloc_witness :
    ((dtod_transfer_init (fun _ _ => true) sampleDtod 1024).2 =
        (transfer_init_common sampleDtod).2 ++
          InitAction.canAccessPeer sampleDtod.device sampleDtod.device2 ::
            (if (fun _ _ => true : Int → Int → Bool) sampleDtod.device
                sampleDtod.device2 then
              [InitAction.setDevice sampleDtod.device,
               InitAction.allocDevice sampleDtod.device 1024,
               InitAction.enablePeerAccess sampleDtod.device2,
               InitAction.setDevice sampleDtod.device2,
               InitAction.allocDevice sampleDtod.device2 1024]
             else [InitAction.exitProcess 1]) ∧
      (transfer_init_common sampleDtod).2.countP isAllocAct = 0) ∧
    (dtod_transfer_init (fun _ _ => false) sampleDtod 1024).2.countP
      isAllocAct = 0 ∧
    (dtod_transfer_init (fun _ _ => false) sampleDtod 1024).1 = none ∧
    (dtod_transfer_init (fun _ _ => false) sampleDtod 1024).2.getLast? =
      some (InitAction.exitProcess 1) :=
  dtod_peer_check_before_alloc (fun _ _ => false) (fun _ _ => true)
    sampleDtod 1024 rfl

/-- Resource classes a channel acquires during the allocation phase. -/
inductive Resource
  | hostPinnedBuffer
  | hostPageableBuffer
  | deviceBuffer (dev : Int)
  | stream
  | timingEvent
deriving DecidableEq, Repr

/-- The resource acquired by an allocation-phase action, when any. -/
def resourceOfInit : InitAction → Option Resource
  | InitAction.eventCreate => some Resource.timingEvent
  | InitAction.streamCreate => some Resource.stream
  | InitAction.allocDevice d _ => some (Resource.deviceBuffer d)
  | InitAction.allocHostPinned _ => some Resource.hostPinnedBuffer
  | InitAction.allocHostPageable _ => some Resource.hostPageableBuffer
  | _ => none

/-- Resources acquired along an allocation trace. -/
def acquired (acts : List InitAction) : List Resource :=
  acts.filterMap resourceOfInit

/-- Teardown actions of `fini` (src/hits.c lines 391-422): `hipHostFree`
or `free` on the host buffer of each direct channel, then `free` of the
transfer array.  `fini` performs no other release call. -/
inductive FiniAction
  | hipHostFree
  | hostFree
  | freeTransferArray
deriving DecidableEq, Repr

/-- The per-channel branch of `fini`: DTOH frees `t->dest`, HTOD frees
`t->src` (pinned via `hipHostFree`, pageable via `free`); DTOD frees
nothing. -/
def fini_one (alloc_flags : Nat) (t : Transfer) : List FiniAction :=
  match t.ttype with
  | TransferType.DTOH =>
    if alloc_flags &&& is_pinned ≠ 0 then [FiniAction.hipHostFree]
    else [FiniAction.hostFree]
  | TransferType.HTOD =>
    if alloc_flags &&& is_pinned ≠ 0 then [FiniAction.hipHostFree]
    else [FiniAction.hostFree]
  | TransferType.DTOD => []

/-- `fini`: the host-buffer loop over all channels followed by
`free(hits->transfer)`. -/
def fini (alloc_flags : Nat) (ts : List Transfer) : List FiniAction :=
  ts.flatMap (fini_one alloc_flags) ++ [FiniAction.freeTransferArray]

/-- The channel resource released by a teardown action, when any (the
transfer array is not a per-channel resource). -/
def resourceOfFini : FiniAction → Option Resource
  | FiniAction.hipHostFree => some Resource.hostPinnedBuffer
  | FiniAction.hostFree => some Resource.hostPageableBuffer
  | FiniAction.freeTransferArray => none

/-- Resources released along a teardown trace. -/
def released (acts : List FiniAction) : List Resource :=
  acts.filterMap resourceOfFini

/-- C3 counterexample: for a concrete HostToDevice channel allocated with
default policy flags (NUMA-aware and pinned, value 3), the allocation
phase acquires a device buffer, a stream and two timing events, but the
teardown trace of `fini` releases none of them — only the pinned host
buffer is released.  Teardown therefore does not release all resources
acquired during allocation. -/
theorem fini_leaks_resources_cex :
    Resource.deviceBuffer 0 ∈
      acquired (htod_transfer_init none sampleHtod 1024 3).2 ∧
    Resource.stream ∈
      acquired (htod_transfer_init none sampleHtod 1024 3).2 ∧
    Resource.timingEvent ∈
      acquired (htod_transfer_init none sampleHtod 1024 3).2 ∧
    Resource.deviceBuffer 0 ∉
      released (fini 3 [(htod_transfer_init none sampleHtod 1024 3).1]) ∧
    Resource.stream ∉
      released (fini 3 [(htod_transfer_init none sampleHtod 1024 3).1]) ∧
    Resource.timingEvent ∉
      released (fini 3 [(htod_transfer_init none sampleHtod 1024 3).1]) := by
  decide

/-- C3 (amended): teardown releases exactly one host buffer per
Host-to-Device or Device-to-Host channel — pinned (`hipHostFree`) when
the pinned policy is on, pageable (`free`) otherwise — and nothing for
DeviceToDevice channels; it releases no device buffer, stream or timing
event.  (The transfer array itself is also freed; device-side resources
are reclaimed only by process exit.) -/
theorem fini_releases_only_host_buffers (alloc_flags : Nat)
    (ts : List Transfer) :
    released (fini alloc_flags ts) =
      ts.flatMap (fun t =>
        match t.ttype with
        | TransferType.DTOD => []
        | _ =>
          [if alloc_flags &&& is_pinned ≠ 0 then Resource.hostPinnedBuffer
           else Resource.hostPageableBuffer]) ∧
    ∀ r ∈ released (fini alloc_flags ts),
      r = Resource.hostPinnedBuffer ∨ r = Resource.hostPageableBuffer := by
  constructor
  · rw [fini, released, List.filterMap_append]
    rw [show List.filterMap resourceOfFini [FiniAction.freeTransferArray] =
      [] from rfl]
    rw [List.append_nil]
    induction ts with
    | nil => rfl
    | cons t rest ih =>
      rw [List.flatMap_cons, List.flatMap_cons, List.filterMap_append, ih]
      rcases t with ⟨d, d2, ty, nn, st⟩
      cases ty <;>
        by_cases hp : alloc_flags &&& is_pinned ≠ 0 <;>
          simp [fini_one, resourceOfFini, hp]
  · intro r hr
    rw [fini, released, List.filterMap_append] at hr
    rcases List.mem_append.mp hr with hr1 | hr1
    · rcases List.mem_filterMap.mp hr1 with ⟨a, ha, hres⟩
      cases a <;> simp [resourceOfFini] at hres <;> simp [hres]
    · rcases List.mem_filterMap.mp hr1 with ⟨a, ha, hres⟩
      rcases List.mem_singleton.mp ha with rfl
      simp [resourceOfFini] at hres

/-- C4: with the NUMA-aware policy on, when the sysfs node file cannot be
opened (`numaFile = none`), `set_numa_affinity` leaves the channel
untouched and performs no call; consequently both Host-Device
initializers leave `numa_node` at its unset value -1, make no NUMA
preference call, still perform both buffer allocations (host and device),
and never terminate the process. -/
theorem numa_open_fail_is_soft (t : Transfer) (b : Int) (flags : Nat)
    (hflags : flags &&& is_numa_aware ≠ 0) :
    (set_numa_affinity none t).1 = t ∧
    (set_numa_affinity none t).2 = [] ∧
    (htod_transfer_init none t b flags).1.numa_node = -1 ∧
    (htod_transfer_init none t b flags).2.countP isNumaPrefAct = 0 ∧
    (htod_transfer_init none t b flags).2.countP isAllocAct = 2 ∧
    (htod_transfer_init none t b flags).2.countP isExitAct = 0 ∧
    (dtoh_transfer_init none t b flags).1.numa_node = -1 ∧
    (dtoh_transfer_init none t b flags).2.countP isNumaPrefAct = 0 ∧
    (dtoh_transfer_init none t b flags).2.countP isAllocAct = 2 ∧
    (dtoh_transfer_init none t b flags).2.countP isExitAct = 0 := by
  refine ⟨rfl, rfl, ?_, ?_, ?_, ?_, ?_, ?_, ?_, ?_⟩ <;>
    by_cases hp : flags &&& is_pinned ≠ 0 <;>
      by_cases hd : (0 : Int) ≤ t.device2 <;>
        simp [htod_transfer_init, dtoh_transfer_init, transfer_init_common,
          set_numa_affinity, hflags, hp, hd, isNumaPrefAct, isExitAct,
          isAllocAct, List.countP_append, List.countP_cons]

/-- C4 witness: concrete HostToDevice channel, default policy flags
(value 3), unopenable node file. -/
theorem numa_open_fail_is_soft_witness :
    (set_numa_affinity none sampleHtod).1 = sampleHtod ∧
    (set_numa_affinity none sampleHtod).2 = [] ∧
    (htod_transfer_init none sampleHtod 1024 3).1.numa_node = -1 ∧
    (htod_transfer_init none sampleHtod 1024 3).2.countP isNumaPrefAct = 0 ∧
    (htod_transfer_init none sampleHtod 1024 3).2.countP isAllocAct = 2 ∧
    (htod_transfer_init none sampleHtod 1024 3).2.countP isExitAct = 0 ∧
    (dtoh_transfer_init none sampleHtod 1024 3).1.numa_node = -1 ∧
    (dtoh_transfer_init none sampleHtod 1024 3).2.countP isNumaPrefAct = 0 ∧
    (dtoh_transfer_init none sampleHtod 1024 3).2.countP isAllocAct = 2 ∧
    (dtoh_transfer_init none sampleHtod 1024 3).2.countP isExitAct = 0 :=
  numa_open_fail_is_soft sampleHtod 1024 3 (by decide)

/-- C10: when the node file opens and `fscanf` parses an integer `v`,
`set_numa_affinity` stores `v` into `numa_node` and issues the
`numa_set_preferred` call with `v` unconditionally — in particular for
`v = -1`, which equals the unset value that `_transfer_init_common`
writes, so the resulting state is indistinguishable from the unset state
while the preference call is still made. -/
theorem numa_pref_called_unconditionally (t : Transfer) (v : Int) :
    (set_numa_affinity (some (some v)) t).1.numa_node = v ∧
    (set_numa_affinity (some (some v)) t).2 =
      [InitAction.numaSetPreferred v] ∧
    (transfer_init_common t).1.numa_node = -1 ∧
    (set_numa_affinity (some (some (-1))) (transfer_init_common t).1).1 =
      (transfer_init_common t).1 ∧
    (set_numa_affinity (some (some (-1)))
        (transfer_init_common t).1).2.countP isNumaPrefAct = 1 := by
  refine ⟨rfl, rfl, rfl, ?_, rfl⟩
  rcases t with ⟨d, d2, ty, nn, st⟩
  rfl

/-- `n_gbytes` in `main` (src/hits.c line 509): the transfer size in
gigabytes, `(float)n_bytes / 1E9`, idealised over exact rationals. -/
def n_gbytes (n_bytes : ℚ) : ℚ := n_bytes / 1000000000

/-- Conversion of `hipEventElapsedTime`'s milliseconds to seconds
(src/hits.c line 545): `dt_sec = dt_msec / 1E3`. -/
def dt_sec_of_msec (dt_msec : ℚ) : ℚ := dt_msec / 1000

/-- The figure printed by the result loop (src/hits.c lines 550, 554):
`n_gbytes / dt_sec * n_iter`, in GB/s (1 GB = 10^9 bytes). -/
def reported_bandwidth_GBps (n_bytes dt_msec n_iter : ℚ) : ℚ :=
  n_gbytes n_bytes / dt_sec_of_msec dt_msec * n_iter

/-- C5: the reported bandwidth, scaled from GB/s back to bytes/second,
equals `size_per_iteration * n_iter / elapsed` for every nonzero elapsed
time (the device clock reports `elapsed * 1000` milliseconds); in
particular `10^9` bytes over 10 iterations in 2 seconds reports 5 GB/s,
i.e. 5*10^9 bytes/second. -/
theorem bandwidth_formula (n_bytes n_iter elapsed : ℚ)
    (h : elapsed ≠ 0) :
    reported_bandwidth_GBps n_bytes (elapsed * 1000) n_iter * 1000000000 =
      n_bytes * n_iter / elapsed ∧
    reported_bandwidth_GBps 1000000000 2000 10 = 5 ∧
    reported_bandwidth_GBps 1000000000 2000 10 * 1000000000 =
      5000000000 := by
  refine ⟨?_, by norm_num [reported_bandwidth_GBps, n_gbytes,
    dt_sec_of_msec], by norm_num [reported_bandwidth_GBps, n_gbytes,
    dt_sec_of_msec]⟩
  unfold reported_bandwidth_GBps n_gbytes dt_sec_of_msec
  field_simp
  ring

/-- C5 witness: the round-trip numbers of the spec, applied at
`n_bytes = 10^9`, `n_iter = 10`, `elapsed = 2`. -/
theorem bandwidth_formula_witness :
    reported_bandwidth_GBps 1000000000 (2 * 1000) 10 * 1000000000 =
      1000000000 * 10 / 2 ∧
    reported_bandwidth_GBps 1000000000 2000 10 = 5 ∧
    reported_bandwidth_GBps 1000000000 2000 10 * 1000000000 =
      5000000000 :=
  bandwidth_formula 1000000000 10 2 (by norm_num)

/-- `N_SIZE_MAX` (src/hits.c line 24): 1 GiB, also the default size. -/
def N_SIZE_MAX : Int := 1073741824
/-- `N_SIZE_DEFAULT` (src/hits.c line 25). -/
def N_SIZE_DEFAULT : Int := N_SIZE_MAX
/-- `N_ITER_DEFAULT` (src/hits.c line 26). -/
def N_ITER_DEFAULT : Int := 100

/-- The scalar configuration fields of `struct Hits` (src/hits.c lines
76-83); the channel array is carried separately as a `List Transfer`. -/
structure HitsConfig where
  n_iter : Int
  n_size : Int
  alloc_flags : Nat
deriving DecidableEq, Repr

/-- The defaults set by `init` (src/hits.c lines 376-379). -/
def hits_defaults : HitsConfig :=
  { n_iter := N_ITER_DEFAULT, n_size := N_SIZE_DEFAULT,
    alloc_flags := is_numa_aware ||| is_pinned }

/-- The `case 's'` branch of `parse_opt` (src/hits.c lines 203-217):
`n_size` is assigned the `strtol` result first; then the error branch
fires when errno signalled EINVAL/ERANGE or — as written in the source —
when `hits->n_iter` (not the size) is negative; then sizes above
`N_SIZE_MAX` are rejected.  Both rejections call `exit(1)`. -/
def parse_size_opt (errEinval errErange : Bool) (parsed : Int)
    (hits : HitsConfig) : Except Nat HitsConfig :=
  let hits2 : HitsConfig := { hits with n_size := parsed }
  if errEinval = true ∨ errErange = true ∨ hits2.n_iter < 0 then
    Except.error 1
  else if hits2.n_size > N_SIZE_MAX then Except.error 1
  else Except.ok hits2

/-- `transfer_init` (src/hits.c lines 337-357): the allocation phase,
dispatching on each channel's type in configuration order. -/
def transfer_init (cap : Int → Int → Bool)
    (numaFile : Option (Option Int)) (hits : HitsConfig)
    (ts : List Transfer) : List InitAction :=
  ts.flatMap (fun t =>
    match t.ttype with
    | TransferType.DTOH =>
      (dtoh_transfer_init numaFile t hits.n_size hits.alloc_flags).2
    | TransferType.HTOD =>
      (htod_transfer_init numaFile t hits.n_size hits.alloc_flags).2
    | TransferType.DTOD => (dtod_transfer_init cap t hits.n_size).2)

/-- `init` (src/hits.c lines 366-384) specialised to a command line whose
only option is one `--size` argument: defaults are set, `argp_parse` runs
the size branch, and only if parsing succeeds does `transfer_init` run
the allocation phase.  On failure the process exits with the parse exit
code before any buffer allocation. -/
def init_with_size (errEinval errErange : Bool) (parsed : Int)
    (cap : Int → Int → Bool) (numaFile : Option (Option Int))
    (ts : List Transfer) : Except Nat (HitsConfig × List InitAction) :=
  match parse_size_opt errEinval errErange parsed hits_defaults with
  | Except.error c => Except.error c
  | Except.ok hits => Except.ok (hits, transfer_init cap numaFile hits ts)

/-- C8: the default per-iteration size is the fixed maximum 1 GiB
(1073741824 bytes), and any `--size` value parsing above that maximum
makes the run exit with code 1 during parsing, before the allocation
phase produces any action. -/
theorem size_over_max_rejected (errEinval errErange : Bool) (parsed : Int)
    (cap : Int → Int → Bool) (numaFile : Option (Option Int))
    (ts : List Transfer) (h : parsed > N_SIZE_MAX) :
    N_SIZE_DEFAULT = N_SIZE_MAX ∧
    hits_defaults.n_size = 1073741824 ∧
    parse_size_opt errEinval errErange parsed hits_defaults =
      Except.error 1 ∧
    init_with_size errEinval errErange parsed cap numaFile ts =
      Except.error 1 := by
  have hp : parse_size_opt errEinval errErange parsed hits_defaults =
      Except.error 1 := by
    unfold parse_size_opt
    cases errEinval <;> cases errErange <;>
      simp [hits_defaults, N_ITER_DEFAULT, h]
  refine ⟨rfl, rfl, hp, ?_⟩
  unfold init_with_size
  rw [hp]

/-- C8 witness: `--size=2000000000` (above 1 GiB) with clean errno is
rejected with exit code 1 before allocation. -/
theorem size_over_max_rejected_witness :
    N_SIZE_DEFAULT = N_SIZE_MAX ∧
    hits_defaults.n_size = 1073741824 ∧
    parse_size_opt false false 2000000000 hits_defaults =
      Except.error 1 ∧
    init_with_size false false 2000000000 (fun _ _ => true) none
      [sampleHtod] = Except.error 1 :=
  size_over_max_rejected false false 2000000000 (fun _ _ => true) none
    [sampleHtod] (by decide)

/-- C9: a `--size` argument parsing to a negative value is accepted: with
clean errno and (as in any state reachable after `--iter` validation) a
non-negative iteration count, the size branch stores the negative value
in the configuration and reports no error — the first validity check
inspects `n_iter`, not the just-parsed size, and the maximum check does
not catch negatives. -/
theorem negative_size_accepted (parsed : Int) (hits : HitsConfig)
    (h1 : parsed < 0) (h2 : 0 ≤ hits.n_iter) :
    parse_size_opt false false parsed hits =
      Except.ok { hits with n_size := parsed } ∧
    (∀ hits2 : HitsConfig, hits2.n_iter < 0 →
      parse_size_opt false false parsed hits2 = Except.error 1) := by
  constructor
  · unfold parse_size_opt
    have hle : ¬parsed > N_SIZE_MAX := by unfold N_SIZE_MAX; omega
    simp [not_lt.mpr h2, hle]
  · intro hits2 hneg
    unfold parse_size_opt
    simp [hneg]

/-- C9 witness: `--size=-7` is accepted against the default
configuration and stored as the transfer size; with a negative iteration
count already in the state, the same branch would reject. -/
theorem negative_size_accepted_witness :
    parse_size_opt false false (-7) hits_defaults =
      Except.ok { hits_defaults with n_size := -7 } ∧
    (∀ hits2 : HitsConfig, hits2.n_iter < 0 →
      parse_size_opt false false (-7) hits2 = Except.error 1) :=
  negative_size_accepted (-7) hits_defaults (by decide) (by decide)

end Hits
